import Mathlib

/-!
The node entry point of mirbft-sample (`cmd/node/main.go`).

A shallow embedding of `args.initializeServer`, `handleSignals` and `main`,
together with the part of Go's `path/filepath` (Unix build) that
`initializeServer` calls.

Modelling conventions.
* A Go `string` is a Lean `String`.  `filepath.Clean` works byte by byte but
  only ever compares a byte with `'/'` and `'.'`, both single-byte in UTF-8, so
  working character by character gives the same result on every valid UTF-8
  path.
* A Go pointer result that may be `nil` is an `Option`; a Go `error` result is
  an `Option GoError` (`none` is `nil`).
* The two goroutines of `main` are interleaved by an explicit schedule.
-/

namespace MirBFT

/-! ## Go `path/filepath` (Unix): `Separator`, `IsPathSeparator`, `Clean`, `Join` -/

/-- The constant `filepath.Separator` on Unix. -/
def Separator : Char := '/'

/-- The function `os.IsPathSeparator` on Unix: `PathSeparator == c`. -/
def IsPathSeparator (c : Char) : Bool := c == Separator

/-- The test `r == n || os.IsPathSeparator(path[r])` used by the `switch` of
`Clean`, on the part `rest = path[r:]` of the path still to be read. -/
def atElemEnd (rest : List Char) : Bool :=
  match rest with
  | [] => true
  | c :: _ => IsPathSeparator c

/-- The inner loop of the `..` case of `Clean`:
`for out.w > dotdot && !os.IsPathSeparator(out.index(out.w)) { out.w-- }`.
The argument is the current `out.w`, the result the final `out.w`; `buf` holds
the bytes written so far. -/
def backtrack (buf : List Char) (dotdot : Nat) : Nat → Nat
  | 0 => 0
  | w + 1 =>
    if w + 1 > dotdot && !IsPathSeparator (buf.getD (w + 1) Separator) then
      backtrack buf dotdot w
    else w + 1

/-- The `..` case of `Clean` after `r += 2`: either backtrack over the last
element written, or (not rooted, nothing to backtrack over) append `..` and
move `dotdot`.  The buffer is the written part `buf[:out.w]`. -/
def dotdotElem (rooted : Bool) (out : List Char) (dotdot : Nat) : List Char × Nat :=
  if out.length > dotdot then
    (out.take (backtrack out dotdot (out.length - 1)), dotdot)
  else if !rooted then
    let out1 := if out.length > 0 then out ++ [Separator] else out
    let out2 := out1 ++ ['.', '.']
    (out2, out2.length)
  else
    (out, dotdot)

/-- The main loop `for r < n { switch ... }` of `Clean`.  `path` is `path[r:]`,
`out` is the written part of the buffer, and the first argument bounds the
number of iterations (every iteration reads at least one byte, so the length
of `path` is enough).  Returns the final buffer and `dotdot`. -/
def cleanLoop (rooted : Bool) : Nat → List Char → List Char → Nat → List Char × Nat
  | 0, _, out, dotdot => (out, dotdot)
  | _ + 1, [], out, dotdot => (out, dotdot)
  | fuel + 1, c :: rest, out, dotdot =>
    if IsPathSeparator c then
      -- empty path element
      cleanLoop rooted fuel rest out dotdot
    else if c == '.' && atElemEnd rest then
      -- . element
      cleanLoop rooted fuel rest out dotdot
    else if c == '.' && rest.head? == some '.' && atElemEnd rest.tail then
      -- .. element: remove to last separator
      let st := dotdotElem rooted out dotdot
      cleanLoop rooted fuel rest.tail st.1 st.2
    else
      -- real path element: add slash if needed, copy element
      let out1 :=
        if (rooted && out.length != 1) || (!rooted && out.length != 0) then
          out ++ [Separator]
        else out
      cleanLoop rooted fuel (rest.dropWhile fun x => !IsPathSeparator x)
        (out1 ++ c :: rest.takeWhile fun x => !IsPathSeparator x) dotdot

/-- The buffer and `dotdot` at the end of the loop of `Clean`.  A rooted path
(one that starts with a separator) starts with the separator written and
`r, dotdot = 1, 1`; the number of iterations is bounded by `n = len(path)`. -/
def cleanBuf (path : List Char) : List Char × Nat :=
  match path with
  | [] => ([], 0)
  | c :: rest =>
    if IsPathSeparator c then cleanLoop true (c :: rest).length rest [Separator] 1
    else cleanLoop false (c :: rest).length (c :: rest) [] 0

/-- The function `filepath.Clean` on Unix, on the characters of the path (the
volume name is empty and `FromSlash` is the identity there): an empty path
gives `.`, and so does an empty buffer at the end of the loop. -/
def cleanChars (path : List Char) : List Char :=
  if path.isEmpty then ['.']
  else
    let out := (cleanBuf path).1
    if out.length == 0 then ['.'] else out

/-- The function `filepath.Clean`. -/
def Clean (path : String) : String := ⟨cleanChars path.data⟩

/-- The function `strings.Join(elems, sep)`. -/
def stringsJoin : List String → String → String
  | [], _ => ""
  | [e], _ => e
  | e :: es, sep => e ++ sep ++ stringsJoin es sep

/-- The function `filepath.Join` on Unix: the elements from the first non-empty
one on are joined with the separator and cleaned; `""` when all are empty. -/
def Join : List String → String
  | [] => ""
  | e :: es =>
    if e != "" then Clean (stringsJoin (e :: es) (String.singleton Separator))
    else Join es

/-- Whether `seg` is one real path element: not empty, without a separator, and
not starting with a dot. -/
def simpleElem (seg : List Char) : Bool :=
  match seg with
  | [] => false
  | c :: cs => c != '.' && (c :: cs).all fun x => !IsPathSeparator x

/-! ## Values that `main.go` handles -/

/-- A Go `error` value: an error of a collaborator, or one wrapped by
`errors.WithMessage` of `github.com/pkg/errors`. -/
inductive GoError where
  | base (msg : String)
  | withMessage (cause : GoError) (msg : String)
deriving DecidableEq, Repr

/-- The method `Error()`; for a wrapped error `w.msg + ": " + w.cause.Error()`. -/
def GoError.Error : GoError → String
  | .base msg => msg
  | .withMessage cause msg => msg ++ ": " ++ cause.Error

/-- The function `errors.WithMessage(err, message)`: `nil` when `err` is `nil`. -/
def WithMessage (err : Option GoError) (message : String) : Option GoError :=
  match err with
  | none => none
  | some e => some (GoError.withMessage e message)

/-- The logger of the server; `main.go` only ever builds
`zap.NewExample().Sugar()`. -/
inductive SugaredLogger where
  | exampleSugar
deriving DecidableEq, Repr

/-- The struct `args` (lines 23-28); `File` stands for `*os.File`. -/
structure args (File : Type) where
  nodeConfig : File
  runDir : String
  eventLog : Bool
  serial : Bool
deriving DecidableEq, Repr

/-- The fields of `sample.Server` that `initializeServer` sets (lines 74-81);
`Cfg` stands for `config.NodeConfig`, and the `NodeConfig` field is a pointer. -/
structure Server (Cfg : Type) where
  Logger : SugaredLogger
  NodeConfig : Option Cfg
  Serial : Bool
  EventLogPath : String
  WALPath : String
  RequestStorePath : String
deriving DecidableEq, Repr

/-- The method `(a *args) initializeServer()` (lines 61-82).  The first argument
is `config.LoadNodeConfig`, a collaborator that returns a pointer and an
error. -/
def args.initializeServer {File Cfg : Type}
    (LoadNodeConfig : File → Option Cfg × Option GoError) (a : args File) :
    Option (Server Cfg) × Option GoError :=
  let (nodeConfig, err) := LoadNodeConfig a.nodeConfig
  if err != none then
    (none, WithMessage err "could not parse node config")
  else
    let walDir := Join [a.runDir, "WAL"]
    let reqStoreDir := Join [a.runDir, "reqStore"]
    let eventLogPath := if a.eventLog then Join [a.runDir, "eventlog.gz"] else ""
    (some
      { Logger := SugaredLogger.exampleSugar
        NodeConfig := nodeConfig
        Serial := a.serial
        EventLogPath := eventLogPath
        WALPath := walDir
        RequestStorePath := reqStoreDir },
     none)

/-! ## The process: `main`, its goroutine, and `handleSignals`

`main` runs two threads of control: its own, and the goroutine of lines
96-101.  Each is a short straight-line program; a state of the process holds
a control point for each, and a schedule (a list of events) says which thread
moves next, when the operating system delivers a signal, and when the
engine's `Run()` returns. -/

/-- The two signals that `handleSignals` subscribes to (line 54). -/
inductive Signal where
  | SIGINT
  | SIGTERM
deriving DecidableEq, Repr

/-- The number of the signal on Linux. -/
def Signal.number : Signal → Nat
  | .SIGINT => 2
  | .SIGTERM => 15

/-- The text that `%v` prints for a `syscall.Signal`. -/
def Signal.String : Signal → String
  | .SIGINT => "interrupt"
  | .SIGTERM => "terminated"

/-- What the process does that can be observed, in the order it happens. -/
inductive Obs where
  /-- a call of `fmt.Printf` -/
  | printf (text : String)
  /-- the message of a call of `kingpin.Fatalf` -/
  | fatalf (text : String)
  /-- the process exits with this status -/
  | exit (status : Nat)
  /-- the goroutine calls `server.Run()` -/
  | runCalled
  /-- the call `server.Run()` returns -/
  | runReturned (err : Option GoError)
  /-- `handleSignals` calls its `stop` callback -/
  | stopCalled
  /-- the `stop` callback has returned to `handleSignals` -/
  | stopReturned
  /-- `handleSignals` receives a signal from `sigC` -/
  | received (sig : Signal)
deriving DecidableEq, Repr

/-- Control points of `handleSignals` (lines 51-59). -/
inductive HsPc where
  /-- lines 52-54: create `sigC` and call `signal.Notify` -/
  | notify
  /-- line 56: `sig := <-sigC` -/
  | recv
  /-- line 57: print the signal received -/
  | print (sig : Signal)
  /-- line 58: `stop()` -/
  | stop
  /-- line 59: the function has returned -/
  | ret
deriving DecidableEq, Repr

/-- Control points of the main thread from line 96 on, that is once
`initializeServer` has succeeded. -/
inductive MainPc where
  /-- line 96: the `go` statement -/
  | spawn
  /-- line 103: inside `handleSignals(server.Stop)` -/
  | handleSignals (pc : HsPc)
  /-- line 105: print the success message -/
  | success
  /-- line 106: `main` returns -/
  | ret
deriving DecidableEq, Repr

/-- Control points of the goroutine of lines 96-101. -/
inductive GoPc where
  /-- the `go` statement has not been executed -/
  | absent
  /-- line 97: about to call `server.Run()` -/
  | callRun
  /-- line 97: inside `server.Run()`, which blocks -/
  | inRun
  /-- line 98: `Run()` has returned `err` -/
  | checkErr (err : Option GoError)
  /-- the function has returned -/
  | done
deriving DecidableEq, Repr

/-- A state of the process. -/
structure Proc where
  /-- where the main thread is -/
  main : MainPc
  /-- where the goroutine is -/
  gor : GoPc
  /-- whether `signal.Notify(sigC, ...)` has been called -/
  notified : Bool
  /-- the content of the channel `sigC`, of capacity 1 -/
  sigC : List Signal
  /-- whether the engine has been asked to wind down -/
  stopRequested : Bool
  /-- what has been observed so far -/
  trace : List Obs
  /-- the exit status, once the process has exited -/
  exited : Option Nat
deriving DecidableEq, Repr

/-- What a schedule is made of. -/
inductive Event where
  /-- the main thread executes its next statement -/
  | main
  /-- the goroutine executes its next statement -/
  | gor
  /-- the operating system delivers a signal to the process -/
  | signal (sig : Signal)
  /-- the engine terminates: the pending call `server.Run()` returns `err` -/
  | runReturns (err : Option GoError)
deriving DecidableEq, Repr

/-- The function `fmt.Printf`, as an observation. -/
def Printf (text : String) (p : Proc) : Proc :=
  { p with trace := p.trace ++ [Obs.printf text] }

/-- The function `kingpin.Fatalf`: print the message, then `os.Exit(1)`. -/
def Fatalf (text : String) (p : Proc) : Proc :=
  { p with trace := p.trace ++ [Obs.fatalf text, Obs.exit 1], exited := some 1 }

/-- Modelled from the spec: the method `Server.Stop` of the `sample` package,
which is not part of `cmd/node/main.go`.  Section 4.3: "`Stop()`
(non-blocking, signals the running engine to wind down ...)": it records the
request and returns at once, whether or not `Run()` has returned. -/
def Server.Stop (p : Proc) : Proc :=
  { p with stopRequested := true }

/-- The text of line 57, `"Caught signal, exiting: %v\n"` for the signal `sig`. -/
def caughtMessage (sig : Signal) : String :=
  "Caught signal, exiting: " ++ sig.String ++ "\n"

/-- One statement of `handleSignals(stop)` (lines 51-59) at control point `pc`.
The receive of line 56 blocks (the state does not change) while `sigC` is
empty.  The call of the callback is recorded in the trace around it. -/
def handleSignals (stop : Proc → Proc) (pc : HsPc) (p : Proc) : HsPc × Proc :=
  match pc with
  | .notify => (.recv, { p with sigC := [], notified := true })
  | .recv =>
    match p.sigC with
    | [] => (.recv, p)
    | sig :: rest =>
      (.print sig, { p with sigC := rest, trace := p.trace ++ [Obs.received sig] })
  | .print sig => (.stop, Printf (caughtMessage sig) p)
  | .stop =>
    let p1 := stop { p with trace := p.trace ++ [Obs.stopCalled] }
    (.ret, { p1 with trace := p1.trace ++ [Obs.stopReturned] })
  | .ret => (.ret, p)

/-- The text of line 105. -/
def successMessage : String := "Success! All worker go routines exited, terminating!\n"

/-- One statement of the main thread (lines 96-106).  When `main` returns the
process exits with status 0, whatever the goroutine is doing. -/
def mainStep (p : Proc) : Proc :=
  match p.main with
  | .spawn => { p with main := .handleSignals .notify, gor := .callRun }
  | .handleSignals pc =>
    let r := handleSignals Server.Stop pc p
    { r.2 with main := if r.1 = HsPc.ret then MainPc.success else MainPc.handleSignals r.1 }
  | .success => { Printf successMessage p with main := .ret }
  | .ret => { p with trace := p.trace ++ [Obs.exit 0], exited := some 0 }

/-- One statement of the goroutine (lines 96-101).  Inside `Run()` it is
blocked until the engine terminates. -/
def gorStep (p : Proc) : Proc :=
  match p.gor with
  | .absent => p
  | .callRun => { p with gor := .inRun, trace := p.trace ++ [Obs.runCalled] }
  | .inRun => p
  | .checkErr none => { p with gor := .done }
  | .checkErr (some err) =>
    { Fatalf ("Application exited abnormally, " ++ err.Error) p with gor := .done }
  | .done => p

/-- The operating system delivers `sig`.  Once `signal.Notify` has been called
the signal is sent to `sigC` without blocking, so it is dropped when the
channel is full; before that, SIGINT and SIGTERM make a Go program exit (the
status is 128 plus the number of the signal, as a shell reports it). -/
def deliver (sig : Signal) (p : Proc) : Proc :=
  if p.notified then
    if p.sigC.length < 1 then { p with sigC := p.sigC ++ [sig] } else p
  else
    { p with trace := p.trace ++ [Obs.exit (128 + sig.number)],
             exited := some (128 + sig.number) }

/-- Modelled from the spec: the method `Server.Run` of the `sample` package,
which is not part of `cmd/node/main.go`.  Section 4.3: "`Run() -> error`
(blocking; returns when the engine terminates, either because `Stop()` was
invoked or because of an internal fault)".  The schedule says when the pending
call returns, and with which error; here it returns `err` to the goroutine. -/
def runReturns (err : Option GoError) (p : Proc) : Proc :=
  match p.gor with
  | .inRun => { p with gor := .checkErr err, trace := p.trace ++ [Obs.runReturned err] }
  | _ => p

/-- One event of a schedule; nothing happens once the process has exited. -/
def step (e : Event) (p : Proc) : Proc :=
  if p.exited != none then p
  else
    match e with
    | .main => mainStep p
    | .gor => gorStep p
    | .signal sig => deliver sig p
    | .runReturns err => runReturns err p

/-- The process after a schedule. -/
def exec : List Event → Proc → Proc
  | [], p => p
  | e :: es, p => exec es (step e p)

/-- The process at line 96: running, the goroutine not started yet. -/
def running : Proc :=
  { main := .spawn, gor := .absent, notified := false, sigC := [],
    stopRequested := false, trace := [], exited := none }

/-- Lines 91-95 of `main`: initialise the server, and exit through
`kingpin.Fatalf` when that fails. -/
def boot {File Cfg : Type} (LoadNodeConfig : File → Option Cfg × Option GoError)
    (a : args File) : Proc :=
  match (a.initializeServer LoadNodeConfig).2 with
  | some err => Fatalf ("Error initializing server, " ++ err.Error) running
  | none => running

/-- The function `main` from line 91 on (the arguments have been parsed), run
under a schedule. -/
def main {File Cfg : Type} (LoadNodeConfig : File → Option Cfg × Option GoError)
    (a : args File) (schedule : List Event) : Proc :=
  exec schedule (boot LoadNodeConfig a)

/-! ## Predicates on executions -/

/-- Whether a schedule delivers no signal. -/
def signalFree : List Event → Bool
  | [] => true
  | .signal _ :: _ => false
  | _ :: es => signalFree es

/-- Whether an observation is made by the main thread from line 96 on: what
it prints, what `handleSignals` does, and the exit with status 0 when `main`
returns. -/
def mainObs : Obs → Bool
  | .printf _ => true
  | .received _ => true
  | .stopCalled => true
  | .stopReturned => true
  | .exit status => status == 0
  | _ => false

/-- The observations of the main thread in a trace. -/
def mainTrace (trace : List Obs) : List Obs := trace.filter mainObs

/-- What the main thread does, in order, on the signal path with signal `sig`. -/
def mainScript (sig : Signal) : List Obs :=
  [Obs.received sig, Obs.printf (caughtMessage sig), Obs.stopCalled, Obs.stopReturned,
   Obs.printf successMessage, Obs.exit 0]

/-- The invariant of the main thread: its observations so far are the part of
`mainScript` that its control point has passed, and only `main` returning
exits with status 0. -/
def MainInv (p : Proc) : Prop :=
  (p.exited = some 0 → p.main = MainPc.ret) ∧
  match p.main with
  | .spawn => mainTrace p.trace = []
  | .handleSignals .notify => mainTrace p.trace = []
  | .handleSignals .recv => mainTrace p.trace = []
  | .handleSignals (.print sig) => mainTrace p.trace = (mainScript sig).take 1
  | .handleSignals .stop => ∃ sig, mainTrace p.trace = (mainScript sig).take 2
  | .handleSignals .ret => False
  | .success => ∃ sig, mainTrace p.trace = (mainScript sig).take 4
  | .ret => ∃ sig, mainTrace p.trace = (mainScript sig).take (if p.exited = some 0 then 6 else 5)

/-- The invariant of the executions in which no signal is delivered: the main
thread has not got past the receive of line 56, and the trace is what the
goroutine has done. -/
def QuietInv (p : Proc) : Prop :=
  p.sigC = [] ∧
  (p.main = MainPc.spawn ∧ p.gor = GoPc.absent ∨
    p.main = MainPc.handleSignals HsPc.notify ∨ p.main = MainPc.handleSignals HsPc.recv) ∧
  match p.gor with
  | .absent => p.trace = [] ∧ p.exited = none
  | .callRun => p.trace = [] ∧ p.exited = none
  | .inRun => p.trace = [Obs.runCalled] ∧ p.exited = none
  | .checkErr err => p.trace = [Obs.runCalled, Obs.runReturned err] ∧ p.exited = none
  | .done =>
    (p.trace = [Obs.runCalled, Obs.runReturned none] ∧ p.exited = none) ∨
    ∃ e, p.trace = [Obs.runCalled, Obs.runReturned (some e),
        Obs.fatalf ("Application exited abnormally, " ++ e.Error), Obs.exit 1] ∧
      p.exited = some 1

/-! ## Facts about `Clean` and `Join` -/

theorem cleanChars_ne_nil (path : List Char) : cleanChars path ≠ [] := by
  unfold cleanChars
  split
  · simp
  · dsimp only
    split
    · simp
    · rename_i h
      intro h0
      simp [h0] at h

theorem Clean_ne_empty (path : String) : Clean path ≠ "" := by
  intro h
  have h1 := congrArg String.data h
  exact cleanChars_ne_nil _ h1

theorem stringsJoin_pair (e seg sep : String) : stringsJoin [e, seg] sep = e ++ sep ++ seg := rfl

theorem Join_pair_of_ne (e seg : String) (h : e ≠ "") :
    Join [e, seg] = Clean (e ++ "/" ++ seg) := by
  simp [Join, h, stringsJoin, Separator]
  rfl

theorem Join_pair_empty (seg : String) (h : seg ≠ "") : Join ["", seg] = Clean seg := by
  simp [Join, h, stringsJoin]

theorem Join_pair_ne_empty (e seg : String) (h : seg ≠ "") : Join [e, seg] ≠ "" := by
  by_cases he : e = ""
  · subst he
    rw [Join_pair_empty seg h]
    exact Clean_ne_empty _
  · rw [Join_pair_of_ne e seg he]
    exact Clean_ne_empty _

theorem atElemEnd_append_sep (p rest : List Char) :
    atElemEnd (p ++ Separator :: rest) = atElemEnd p := by
  cases p <;> simp [atElemEnd, IsPathSeparator]

theorem takeWhile_append_sep (p rest : List Char) :
    (p ++ Separator :: rest).takeWhile (fun x => !IsPathSeparator x)
      = p.takeWhile (fun x => !IsPathSeparator x) := by
  induction p with
  | nil => simp [List.takeWhile, IsPathSeparator]
  | cons c p ih =>
    simp only [List.cons_append, List.takeWhile_cons]
    rw [ih]

theorem dropWhile_append_sep (p rest : List Char) :
    (p ++ Separator :: rest).dropWhile (fun x => !IsPathSeparator x)
      = p.dropWhile (fun x => !IsPathSeparator x) ++ Separator :: rest := by
  induction p with
  | nil => simp [List.dropWhile, IsPathSeparator]
  | cons c p ih =>
    simp only [List.cons_append, List.dropWhile_cons]
    rw [ih]
    split <;> simp

theorem length_dropWhile_le (f : Char → Bool) (l : List Char) :
    (l.dropWhile f).length ≤ l.length := by
  induction l with
  | nil => simp
  | cons c l ih =>
    simp only [List.dropWhile_cons]
    split
    · simp; omega
    · simp

theorem cleanLoop_nil (rooted : Bool) (fuel : Nat) (out : List Char) (dotdot : Nat) :
    cleanLoop rooted fuel [] out dotdot = (out, dotdot) := by
  cases fuel <;> rfl

theorem cleanLoop_cons (rooted : Bool) (fuel : Nat) (c : Char) (rest out : List Char)
    (dotdot : Nat) :
    cleanLoop rooted (fuel + 1) (c :: rest) out dotdot =
      if IsPathSeparator c then cleanLoop rooted fuel rest out dotdot
      else if c == '.' && atElemEnd rest then cleanLoop rooted fuel rest out dotdot
      else if c == '.' && rest.head? == some '.' && atElemEnd rest.tail then
        cleanLoop rooted fuel rest.tail (dotdotElem rooted out dotdot).1
          (dotdotElem rooted out dotdot).2
      else
        cleanLoop rooted fuel (rest.dropWhile fun x => !IsPathSeparator x)
          ((if (rooted && out.length != 1) || (!rooted && out.length != 0) then
              out ++ [Separator]
            else out) ++ c :: rest.takeWhile fun x => !IsPathSeparator x) dotdot := by
  rw [cleanLoop]

/-- One more unit of fuel changes nothing once the fuel covers the path. -/
theorem cleanLoop_succ (rooted : Bool) :
    ∀ (fuel : Nat) (path out : List Char) (dotdot : Nat), path.length ≤ fuel →
      cleanLoop rooted (fuel + 1) path out dotdot = cleanLoop rooted fuel path out dotdot := by
  intro fuel
  induction fuel with
  | zero =>
    intro path out dotdot h
    have : path = [] := List.length_eq_zero.mp (Nat.le_zero.mp h)
    subst this
    simp [cleanLoop]
  | succ n ih =>
    intro path out dotdot h
    cases path with
    | nil => simp [cleanLoop]
    | cons c rest =>
      have hr : rest.length ≤ n := by simpa using h
      have ht : rest.tail.length ≤ n := by simp; omega
      have hd : (rest.dropWhile fun x => !IsPathSeparator x).length ≤ n :=
        le_trans (length_dropWhile_le _ _) hr
      rw [cleanLoop_cons, cleanLoop_cons]
      simp only [ih _ _ _ hr, ih _ _ _ ht, ih _ _ _ hd]

theorem cleanLoop_fuel (rooted : Bool) (fuel : Nat) :
    ∀ (path out : List Char) (dotdot : Nat), path.length ≤ fuel →
      cleanLoop rooted fuel path out dotdot
        = cleanLoop rooted path.length path out dotdot := by
  induction fuel with
  | zero =>
    intro path out dotdot h
    have : path = [] := List.length_eq_zero.mp (Nat.le_zero.mp h)
    subst this
    rfl
  | succ n ih =>
    intro path out dotdot h
    by_cases hlt : path.length ≤ n
    · rw [cleanLoop_succ rooted n path out dotdot hlt, ih path out dotdot hlt]
    · have : path.length = n + 1 := by omega
      rw [this]

/-- Reading `p`, then a separator, then `rest`, is reading `p` and going on from
the state reached: what follows `p` starts a new element. -/
theorem cleanLoop_append_sep (rooted : Bool) :
    ∀ (fuel : Nat) (p rest out : List Char) (dotdot : Nat),
      (p ++ Separator :: rest).length ≤ fuel →
      cleanLoop rooted fuel (p ++ Separator :: rest) out dotdot
        = cleanLoop rooted fuel (Separator :: rest)
            (cleanLoop rooted fuel p out dotdot).1 (cleanLoop rooted fuel p out dotdot).2 := by
  intro fuel
  induction fuel with
  | zero =>
    intro p rest out dotdot h
    simp at h
  | succ n ih =>
    intro p rest out dotdot h
    cases p with
    | nil => simp [cleanLoop]
    | cons c p1 =>
      have hlen : (p1 ++ Separator :: rest).length ≤ n := by simpa using h
      have hsep : (Separator :: rest).length ≤ n := by
        simp at hlen ⊢; omega
      have hfuel : ∀ o d, cleanLoop rooted (n + 1) (Separator :: rest) o d
          = cleanLoop rooted n (Separator :: rest) o d :=
        fun o d => cleanLoop_succ rooted n _ o d hsep
      simp only [hfuel]
      rw [List.cons_append, cleanLoop_cons, cleanLoop_cons]
      simp only [atElemEnd_append_sep, takeWhile_append_sep, dropWhile_append_sep]
      by_cases h1 : IsPathSeparator c = true
      · simp only [h1, if_true]
        exact ih p1 rest out dotdot hlen
      · simp only [h1]
        by_cases h2 : (c == '.' && atElemEnd p1) = true
        · simp only [h2, if_true]
          exact ih p1 rest out dotdot hlen
        · simp only [h2]
          cases p1 with
          | nil =>
            have h3 : (c == '.' && (Separator :: rest).head? == some '.'
                && atElemEnd (Separator :: rest).tail) = false := by
              simp [Separator]
            have h3' : (c == '.' && ([] : List Char).head? == some '.'
                && atElemEnd ([] : List Char).tail) = false := by
              simp
            simp only [h3, h3', Bool.false_eq_true, if_false, List.dropWhile_nil,
              List.takeWhile_nil, List.nil_append, cleanLoop_nil]
          | cons d p2 =>
            have hlen2 : (p2 ++ Separator :: rest).length ≤ n := by
              simp at hlen ⊢; omega
            simp only [List.cons_append, List.head?_cons, List.tail_cons, atElemEnd_append_sep]
            by_cases h3 : (c == '.' && some d == some '.' && atElemEnd p2) = true
            · simp only [h3, if_true]
              exact ih p2 rest _ _ hlen2
            · simp only [h3, Bool.false_eq_true, if_false]
              apply ih
              have := length_dropWhile_le (fun x => !IsPathSeparator x) (d :: p2)
              simp at hlen this ⊢
              omega

theorem takeWhile_of_all (f : Char → Bool) (l : List Char) (h : l.all f = true) :
    l.takeWhile f = l := by
  induction l with
  | nil => rfl
  | cons c l ih =>
    simp only [List.all_cons, Bool.and_eq_true] at h
    simp [List.takeWhile_cons, h.1, ih h.2]

theorem dropWhile_of_all (f : Char → Bool) (l : List Char) (h : l.all f = true) :
    l.dropWhile f = [] := by
  induction l with
  | nil => rfl
  | cons c l ih =>
    simp only [List.all_cons, Bool.and_eq_true] at h
    simp [List.dropWhile_cons, h.1, ih h.2]

/-- A separator followed by one real element, at the end of the path: the loop
appends the element, with a separator before it unless the buffer holds just
the root or nothing. -/
theorem cleanLoop_sep_simple (rooted : Bool) (fuel : Nat) (seg out : List Char) (dotdot : Nat)
    (hseg : simpleElem seg = true) (hfuel : seg.length + 1 ≤ fuel) :
    cleanLoop rooted fuel (Separator :: seg) out dotdot =
      ((if (rooted && out.length != 1) || (!rooted && out.length != 0) then
          out ++ [Separator]
        else out) ++ seg, dotdot) := by
  cases seg with
  | nil => simp [simpleElem] at hseg
  | cons c cs =>
    simp only [simpleElem, List.all_cons, Bool.and_eq_true] at hseg
    obtain ⟨hc, hcsep, hcs⟩ := hseg
    obtain ⟨f, rfl⟩ : ∃ f, fuel = f + 2 := ⟨fuel - 2, by simp at hfuel; omega⟩
    have hc1 : IsPathSeparator c = false := by simpa using hcsep
    have hc2 : (c == '.') = false := by simpa using hc
    have hs : IsPathSeparator Separator = true := by simp [IsPathSeparator]
    rw [cleanLoop_cons, cleanLoop_cons]
    simp only [hs, if_true, hc1, hc2, Bool.false_and, Bool.false_eq_true, if_false]
    rw [takeWhile_of_all _ cs hcs, dropWhile_of_all _ cs hcs, cleanLoop_nil]

/-- On a path that `Clean` leaves as it is, other than `.`, the buffer at the end
of the loop is the path itself. -/
theorem cleanBuf_of_clean (p : List Char) (hclean : cleanChars p = p) (hdot : p ≠ ['.']) :
    (cleanBuf p).1 = p := by
  unfold cleanChars at hclean
  split at hclean
  · rename_i h
    simp at h
    subst h
    simp at hclean
  · dsimp only at hclean
    split at hclean
    · exact absurd hclean.symm hdot
    · exact hclean

theorem cleanBuf_append_simple (p seg : List Char) (hclean : cleanChars p = p)
    (hdot : p ≠ ['.']) (hroot : p ≠ [Separator]) (hseg : simpleElem seg = true) :
    (cleanBuf (p ++ Separator :: seg)).1 = p ++ Separator :: seg := by
  have hbuf := cleanBuf_of_clean p hclean hdot
  cases p with
  | nil => simp [cleanChars] at hclean
  | cons a t =>
    have hsegfuel : seg.length + 1 ≤ (a :: t ++ Separator :: seg).length := by
      simp; omega
    by_cases ha : IsPathSeparator a = true
    · have ht : t ≠ [] := by
        intro ht
        apply hroot
        simp only [IsPathSeparator, beq_iff_eq] at ha
        rw [ht, ha]
      have hbuf' : (cleanLoop true (a :: t).length t [Separator] 1).1 = a :: t := by
        simpa [cleanBuf, ha] using hbuf
      have hfuel1 : (t ++ Separator :: seg).length ≤ (a :: t ++ Separator :: seg).length := by
        simp
      have hcomp := cleanLoop_append_sep true _ t seg [Separator] 1 hfuel1
      have hX : cleanLoop true (a :: t ++ Separator :: seg).length t [Separator] 1
          = cleanLoop true (a :: t).length t [Separator] 1 := by
        rw [cleanLoop_fuel true (a :: t ++ Separator :: seg).length t _ _ (by simp; omega),
          cleanLoop_fuel true (a :: t).length t _ _ (by simp)]
      have hne : ((a :: t).length != 1) = true := by
        cases t with
        | nil => exact absurd rfl ht
        | cons b t2 => simp
      simp only [cleanBuf, ha, List.cons_append, if_true]
      rw [← List.cons_append, hcomp, hX, hbuf',
        cleanLoop_sep_simple true _ seg _ _ hseg hsegfuel]
      simp [ht]
    · have hbuf' : (cleanLoop false (a :: t).length (a :: t) [] 0).1 = a :: t := by
        simpa [cleanBuf, ha] using hbuf
      have hcomp := cleanLoop_append_sep false _ (a :: t) seg [] 0 (le_refl _)
      have hX : cleanLoop false (a :: t ++ Separator :: seg).length (a :: t) [] 0
          = cleanLoop false (a :: t).length (a :: t) [] 0 := by
        exact cleanLoop_fuel false (a :: t ++ Separator :: seg).length (a :: t) _ _
          (by simp)
      simp only [cleanBuf, ha, List.cons_append, Bool.false_eq_true, if_false]
      rw [← List.cons_append, hcomp, hX, hbuf',
        cleanLoop_sep_simple false _ seg _ _ hseg hsegfuel]
      simp

theorem cleanChars_append_simple (p seg : List Char) (hclean : cleanChars p = p)
    (hdot : p ≠ ['.']) (hroot : p ≠ [Separator]) (hseg : simpleElem seg = true) :
    cleanChars (p ++ Separator :: seg) = p ++ Separator :: seg := by
  have h := cleanBuf_append_simple p seg hclean hdot hroot hseg
  unfold cleanChars
  simp [h]

/-- Joining a clean directory (other than `.` and `/`) with one real element is
plain concatenation. -/
theorem Join_of_clean (runDir seg : String) (hclean : Clean runDir = runDir)
    (hdot : runDir ≠ ".") (hroot : runDir ≠ "/") (hseg : simpleElem seg.data = true) :
    Join [runDir, seg] = runDir ++ "/" ++ seg := by
  have hne : runDir ≠ "" := by
    intro h
    rw [h] at hclean
    exact absurd hclean (by decide)
  rw [Join_pair_of_ne runDir seg hne]
  apply String.ext
  have h1 : cleanChars runDir.data = runDir.data := congrArg String.data hclean
  have h2 : runDir.data ≠ ['.'] := fun h => hdot (String.ext h)
  have h3 : runDir.data ≠ [Separator] := fun h => hroot (String.ext h)
  have := cleanChars_append_simple runDir.data seg.data h1 h2 h3 hseg
  simpa [Clean, Separator] using this

/-! ## `initializeServer` -/

theorem initializeServer_of_loaded {File Cfg : Type}
    (LoadNodeConfig : File → Option Cfg × Option GoError) (a : args File)
    (hload : (LoadNodeConfig a.nodeConfig).2 = none) :
    a.initializeServer LoadNodeConfig =
      (some
        { Logger := SugaredLogger.exampleSugar
          NodeConfig := (LoadNodeConfig a.nodeConfig).1
          Serial := a.serial
          EventLogPath := if a.eventLog then Join [a.runDir, "eventlog.gz"] else ""
          WALPath := Join [a.runDir, "WAL"]
          RequestStorePath := Join [a.runDir, "reqStore"] },
       none) := by
  unfold args.initializeServer
  simp [hload]

theorem initializeServer_of_failed {File Cfg : Type}
    (LoadNodeConfig : File → Option Cfg × Option GoError) (a : args File) (e : GoError)
    (hload : (LoadNodeConfig a.nodeConfig).2 = some e) :
    a.initializeServer LoadNodeConfig =
      (none, some (GoError.withMessage e "could not parse node config")) := by
  unfold args.initializeServer
  simp [hload, WithMessage]

theorem exec_of_exited (schedule : List Event) (p : Proc) (h : p.exited ≠ none) :
    exec schedule p = p := by
  induction schedule with
  | nil => rfl
  | cons e es ih =>
    have hs : step e p = p := by simp [step, h]
    rw [exec, hs, ih]

/-- C1: whenever the configuration loads, `initializeServer` returns a server,
and its `EventLogPath` is present (not the empty string) exactly when
`args.eventLog` is set. -/
theorem initializeServer_eventLogPath_present_iff {File Cfg : Type}
    (LoadNodeConfig : File → Option Cfg × Option GoError) (a : args File)
    (hload : (LoadNodeConfig a.nodeConfig).2 = none) :
    ∃ server, a.initializeServer LoadNodeConfig = (some server, none) ∧
      (server.EventLogPath ≠ "" ↔ a.eventLog = true) := by
  refine ⟨_, initializeServer_of_loaded LoadNodeConfig a hload, ?_⟩
  cases hlog : a.eventLog
  · simp
  · simpa using Join_pair_ne_empty a.runDir "eventlog.gz" (by decide)

theorem initializeServer_eventLogPath_present_iff_witness :
    ((fun _ : Unit => ((some 7 : Option Nat), (none : Option GoError))) ()).2 = none ∧
    ∃ server,
      (args.mk () "/data/node1" true false).initializeServer
          (fun _ : Unit => ((some 7 : Option Nat), (none : Option GoError)))
        = (some server, none) ∧
      (server.EventLogPath ≠ "" ↔ (args.mk () "/data/node1" true false).eventLog = true) :=
  ⟨rfl, initializeServer_eventLogPath_present_iff
    (fun _ : Unit => ((some 7 : Option Nat), (none : Option GoError)))
    (args.mk () "/data/node1" true false) rfl⟩

/-- C2: with `runDir = "/data/node1"` and `eventLog = false`, and a
configuration that loads, the server has `WALPath = "/data/node1/WAL"`,
`RequestStorePath = "/data/node1/reqStore"` and an empty `EventLogPath`. -/
theorem initializeServer_node1_eventLog_off {File Cfg : Type}
    (LoadNodeConfig : File → Option Cfg × Option GoError) (nodeConfig : File) (serial : Bool)
    (hload : (LoadNodeConfig nodeConfig).2 = none) :
    ∃ server,
      (args.mk nodeConfig "/data/node1" false serial).initializeServer LoadNodeConfig
        = (some server, none) ∧
      server.WALPath = "/data/node1/WAL" ∧
      server.RequestStorePath = "/data/node1/reqStore" ∧
      server.EventLogPath = "" := by
  have hWAL : Join ["/data/node1", "WAL"] = "/data/node1/WAL" := by decide
  have hReq : Join ["/data/node1", "reqStore"] = "/data/node1/reqStore" := by decide
  exact ⟨_, initializeServer_of_loaded LoadNodeConfig _ hload, hWAL, hReq, rfl⟩

theorem initializeServer_node1_eventLog_off_witness :
    ((fun _ : Unit => ((some 7 : Option Nat), (none : Option GoError))) ()).2 = none ∧
    ∃ server,
      (args.mk () "/data/node1" false true).initializeServer
          (fun _ : Unit => ((some 7 : Option Nat), (none : Option GoError)))
        = (some server, none) ∧
      server.WALPath = "/data/node1/WAL" ∧
      server.RequestStorePath = "/data/node1/reqStore" ∧
      server.EventLogPath = "" :=
  ⟨rfl, initializeServer_node1_eventLog_off
    (fun _ : Unit => ((some 7 : Option Nat), (none : Option GoError))) () true rfl⟩

/-- C3: with `runDir = "/data/node1"` and `eventLog = true`, and a configuration
that loads, the server has `EventLogPath = "/data/node1/eventlog.gz"`, and
`WALPath` and `RequestStorePath` are `"/data/node1/WAL"` and
`"/data/node1/reqStore"`, the same as the server built with the flag off. -/
theorem initializeServer_node1_eventLog_on {File Cfg : Type}
    (LoadNodeConfig : File → Option Cfg × Option GoError) (nodeConfig : File) (serial : Bool)
    (hload : (LoadNodeConfig nodeConfig).2 = none) :
    ∃ server off,
      (args.mk nodeConfig "/data/node1" true serial).initializeServer LoadNodeConfig
        = (some server, none) ∧
      (args.mk nodeConfig "/data/node1" false serial).initializeServer LoadNodeConfig
        = (some off, none) ∧
      server.EventLogPath = "/data/node1/eventlog.gz" ∧
      server.WALPath = "/data/node1/WAL" ∧
      server.RequestStorePath = "/data/node1/reqStore" ∧
      server.WALPath = off.WALPath ∧
      server.RequestStorePath = off.RequestStorePath := by
  have hWAL : Join ["/data/node1", "WAL"] = "/data/node1/WAL" := by decide
  have hReq : Join ["/data/node1", "reqStore"] = "/data/node1/reqStore" := by decide
  have hLog : Join ["/data/node1", "eventlog.gz"] = "/data/node1/eventlog.gz" := by decide
  exact ⟨_, _, initializeServer_of_loaded LoadNodeConfig _ hload,
    initializeServer_of_loaded LoadNodeConfig _ hload, hLog, hWAL, hReq, rfl, rfl⟩

theorem initializeServer_node1_eventLog_on_witness :
    ((fun _ : Unit => ((some 7 : Option Nat), (none : Option GoError))) ()).2 = none ∧
    ∃ server off,
      (args.mk () "/data/node1" true false).initializeServer
          (fun _ : Unit => ((some 7 : Option Nat), (none : Option GoError)))
        = (some server, none) ∧
      (args.mk () "/data/node1" false false).initializeServer
          (fun _ : Unit => ((some 7 : Option Nat), (none : Option GoError)))
        = (some off, none) ∧
      server.EventLogPath = "/data/node1/eventlog.gz" ∧
      server.WALPath = "/data/node1/WAL" ∧
      server.RequestStorePath = "/data/node1/reqStore" ∧
      server.WALPath = off.WALPath ∧
      server.RequestStorePath = off.RequestStorePath :=
  ⟨rfl, initializeServer_node1_eventLog_on
    (fun _ : Unit => ((some 7 : Option Nat), (none : Option GoError))) () false rfl⟩

/-- C4: `initializeServer` returns an error exactly when `config.LoadNodeConfig`
does, whatever `runDir` is; with an error it returns no server, without one it
returns a server; and when it fails `main` exits with status 1 through
`kingpin.Fatalf` under every schedule, the goroutine is never started and
`server.Run()` is never called. -/
theorem initializeServer_error_iff_load_error {File Cfg : Type}
    (LoadNodeConfig : File → Option Cfg × Option GoError) (a : args File) :
    ((a.initializeServer LoadNodeConfig).2 ≠ none ↔ (LoadNodeConfig a.nodeConfig).2 ≠ none) ∧
    ((a.initializeServer LoadNodeConfig).2 ≠ none →
      (a.initializeServer LoadNodeConfig).1 = none) ∧
    ((a.initializeServer LoadNodeConfig).2 = none →
      (a.initializeServer LoadNodeConfig).1 ≠ none) ∧
    ((LoadNodeConfig a.nodeConfig).2 ≠ none →
      ∀ schedule : List Event,
        (main LoadNodeConfig a schedule).exited = some 1 ∧
        (main LoadNodeConfig a schedule).gor = GoPc.absent ∧
        Obs.runCalled ∉ (main LoadNodeConfig a schedule).trace) := by
  cases hload : (LoadNodeConfig a.nodeConfig).2 with
  | none =>
    rw [initializeServer_of_loaded LoadNodeConfig a hload]
    simp
  | some e =>
    rw [initializeServer_of_failed LoadNodeConfig a e hload]
    refine ⟨by simp, by simp, by simp, ?_⟩
    intro _ schedule
    have hboot : boot LoadNodeConfig a
        = Fatalf ("Error initializing server, "
            ++ (GoError.withMessage e "could not parse node config").Error) running := by
      simp [boot, initializeServer_of_failed LoadNodeConfig a e hload]
    have hex : exec schedule (boot LoadNodeConfig a) = boot LoadNodeConfig a :=
      exec_of_exited schedule _ (by rw [hboot]; simp [Fatalf])
    unfold main
    rw [hex, hboot]
    simp [Fatalf, running]

/-- C9: whenever the configuration loads, the server has `Serial = args.serial`,
and changing only `serial` changes only that field: the paths, the
configuration and the logger stay the same. -/
theorem initializeServer_serial_only_sets_Serial {File Cfg : Type}
    (LoadNodeConfig : File → Option Cfg × Option GoError) (a : args File)
    (hload : (LoadNodeConfig a.nodeConfig).2 = none) :
    ∃ server, a.initializeServer LoadNodeConfig = (some server, none) ∧
      server.Serial = a.serial ∧
      ∀ serial : Bool, ∃ other,
        (args.mk a.nodeConfig a.runDir a.eventLog serial).initializeServer LoadNodeConfig
          = (some other, none) ∧
        other.Serial = serial ∧
        other.WALPath = server.WALPath ∧
        other.RequestStorePath = server.RequestStorePath ∧
        other.EventLogPath = server.EventLogPath ∧
        other.NodeConfig = server.NodeConfig ∧
        other.Logger = server.Logger := by
  refine ⟨_, initializeServer_of_loaded LoadNodeConfig a hload, rfl, ?_⟩
  intro serial
  exact ⟨_, initializeServer_of_loaded LoadNodeConfig _ hload, rfl, rfl, rfl, rfl, rfl, rfl⟩

theorem initializeServer_serial_only_sets_Serial_witness :
    ((fun _ : Unit => ((some 7 : Option Nat), (none : Option GoError))) ()).2 = none ∧
    ∃ server,
      (args.mk () "/data/node1" true true).initializeServer
          (fun _ : Unit => ((some 7 : Option Nat), (none : Option GoError)))
        = (some server, none) ∧
      server.Serial = (args.mk () "/data/node1" true true).serial ∧
      ∀ serial : Bool, ∃ other,
        (args.mk () "/data/node1" true serial).initializeServer
            (fun _ : Unit => ((some 7 : Option Nat), (none : Option GoError)))
          = (some other, none) ∧
        other.Serial = serial ∧
        other.WALPath = server.WALPath ∧
        other.RequestStorePath = server.RequestStorePath ∧
        other.EventLogPath = server.EventLogPath ∧
        other.NodeConfig = server.NodeConfig ∧
        other.Logger = server.Logger :=
  ⟨rfl, initializeServer_serial_only_sets_Serial
    (fun _ : Unit => ((some 7 : Option Nat), (none : Option GoError)))
    (args.mk () "/data/node1" true true) rfl⟩

/-- C8, as stated, fails: with `runDir = "run/../node1/"` the paths are
`node1/WAL`, `node1/reqStore` and `node1/eventlog.gz`: none is `runDir`, a
separator and the segment, and `runDir` is a prefix of none of them. -/
theorem initializeServer_paths_not_concatenation :
    "run/../node1/" ≠ "" ∧
    ∃ server,
      (args.mk () "run/../node1/" true false).initializeServer
          (fun _ : Unit => ((some 7 : Option Nat), (none : Option GoError)))
        = (some server, none) ∧
      server.WALPath = "node1/WAL" ∧
      server.RequestStorePath = "node1/reqStore" ∧
      server.EventLogPath = "node1/eventlog.gz" ∧
      server.WALPath ≠ "run/../node1/" ++ "/" ++ "WAL" ∧
      server.RequestStorePath ≠ "run/../node1/" ++ "/" ++ "reqStore" ∧
      server.EventLogPath ≠ "run/../node1/" ++ "/" ++ "eventlog.gz" ∧
      ¬ ("run/../node1/".data <+: server.WALPath.data) ∧
      ¬ ("run/../node1/".data <+: server.RequestStorePath.data) ∧
      ¬ ("run/../node1/".data <+: server.EventLogPath.data) := by
  refine ⟨by decide, _, initializeServer_of_loaded _ _ rfl, ?_, ?_, ?_, ?_, ?_, ?_, ?_, ?_, ?_⟩
    <;> decide

/-- C8, amended: when the configuration loads and `runDir` is not empty, each
derived path is `filepath.Clean` of `runDir`, a separator and the fixed
segment; and when `runDir` is a path that `filepath.Clean` leaves unchanged,
other than `.` and `/`, each derived path is that concatenation itself, so
that `runDir` is a prefix of each of them. -/
theorem initializeServer_paths_cleaned_concatenation {File Cfg : Type}
    (LoadNodeConfig : File → Option Cfg × Option GoError) (a : args File)
    (hload : (LoadNodeConfig a.nodeConfig).2 = none) (hne : a.runDir ≠ "") :
    ∃ server, a.initializeServer LoadNodeConfig = (some server, none) ∧
      server.WALPath = Clean (a.runDir ++ "/" ++ "WAL") ∧
      server.RequestStorePath = Clean (a.runDir ++ "/" ++ "reqStore") ∧
      (a.eventLog = true → server.EventLogPath = Clean (a.runDir ++ "/" ++ "eventlog.gz")) ∧
      (Clean a.runDir = a.runDir → a.runDir ≠ "." → a.runDir ≠ "/" →
        server.WALPath = a.runDir ++ "/" ++ "WAL" ∧
        server.RequestStorePath = a.runDir ++ "/" ++ "reqStore" ∧
        (a.eventLog = true → server.EventLogPath = a.runDir ++ "/" ++ "eventlog.gz") ∧
        a.runDir.data <+: server.WALPath.data ∧
        a.runDir.data <+: server.RequestStorePath.data ∧
        (a.eventLog = true → a.runDir.data <+: server.EventLogPath.data)) := by
  refine ⟨_, initializeServer_of_loaded LoadNodeConfig a hload,
    Join_pair_of_ne a.runDir "WAL" hne, Join_pair_of_ne a.runDir "reqStore" hne, ?_, ?_⟩
  · intro hlog
    simp [hlog, Join_pair_of_ne a.runDir "eventlog.gz" hne]
  · intro hclean hdot hroot
    have h1 := Join_of_clean a.runDir "WAL" hclean hdot hroot (by decide)
    have h2 := Join_of_clean a.runDir "reqStore" hclean hdot hroot (by decide)
    have h3 := Join_of_clean a.runDir "eventlog.gz" hclean hdot hroot (by decide)
    refine ⟨h1, h2, ?_, ?_, ?_, ?_⟩
    · intro hlog
      simp [hlog, h3]
    · simp only [h1, String.data_append, List.append_assoc]
      exact List.prefix_append _ _
    · simp only [h2, String.data_append, List.append_assoc]
      exact List.prefix_append _ _
    · intro hlog
      simp only [hlog, if_true, h3, String.data_append, List.append_assoc]
      exact List.prefix_append _ _

theorem initializeServer_paths_cleaned_concatenation_witness :
    (((fun _ : Unit => ((some 7 : Option Nat), (none : Option GoError))) ()).2 = none ∧
      "../shared/node1" ≠ "" ∧ Clean "../shared/node1" = "../shared/node1" ∧
      "../shared/node1" ≠ "." ∧ "../shared/node1" ≠ "/") ∧
    ∃ server,
      (args.mk () "../shared/node1" true false).initializeServer
          (fun _ : Unit => ((some 7 : Option Nat), (none : Option GoError)))
        = (some server, none) ∧
      server.WALPath = Clean ("../shared/node1" ++ "/" ++ "WAL") ∧
      server.RequestStorePath = Clean ("../shared/node1" ++ "/" ++ "reqStore") ∧
      ((args.mk () "../shared/node1" true false).eventLog = true →
        server.EventLogPath = Clean ("../shared/node1" ++ "/" ++ "eventlog.gz")) ∧
      (Clean "../shared/node1" = "../shared/node1" → "../shared/node1" ≠ "." →
        "../shared/node1" ≠ "/" →
        server.WALPath = "../shared/node1" ++ "/" ++ "WAL" ∧
        server.RequestStorePath = "../shared/node1" ++ "/" ++ "reqStore" ∧
        ((args.mk () "../shared/node1" true false).eventLog = true →
          server.EventLogPath = "../shared/node1" ++ "/" ++ "eventlog.gz") ∧
        "../shared/node1".data <+: server.WALPath.data ∧
        "../shared/node1".data <+: server.RequestStorePath.data ∧
        ((args.mk () "../shared/node1" true false).eventLog = true →
          "../shared/node1".data <+: server.EventLogPath.data)) :=
  ⟨⟨rfl, by decide, by decide, by decide, by decide⟩,
    initializeServer_paths_cleaned_concatenation
      (fun _ : Unit => ((some 7 : Option Nat), (none : Option GoError)))
      (args.mk () "../shared/node1" true false) rfl (by decide)⟩

/-! ## Executions of `main` -/

theorem exec_append (s t : List Event) (p : Proc) : exec (s ++ t) p = exec t (exec s p) := by
  induction s generalizing p with
  | nil => rfl
  | cons e es ih => simp [exec, ih]

theorem main_eq {File Cfg : Type} (LoadNodeConfig : File → Option Cfg × Option GoError)
    (a : args File) (schedule : List Event) :
    main LoadNodeConfig a schedule = exec schedule running ∨
      ∃ text, main LoadNodeConfig a schedule = Fatalf text running := by
  unfold main boot
  split
  · right
    exact ⟨_, exec_of_exited _ _ (by simp [Fatalf])⟩
  · left
    rfl

theorem mainTrace_append (s t : List Obs) : mainTrace (s ++ t) = mainTrace s ++ mainTrace t := by
  simp [mainTrace]

theorem MainInv_running : MainInv running := by
  simp [MainInv, running, mainTrace]

theorem MainInv_Fatalf (text : String) : MainInv (Fatalf text running) := by
  simp [MainInv, running, Fatalf, mainTrace, mainObs]

theorem MainInv_step (e : Event) (p : Proc) (h : MainInv p) : MainInv (step e p) := by
  unfold step
  split
  · exact h
  · rename_i hex
    have hex' : p.exited = none := by simpa using hex
    obtain ⟨h0, h1⟩ := h
    cases e with
    | main =>
      dsimp only
      unfold mainStep
      cases hm : p.main with
      | spawn => simp_all [MainInv]
      | handleSignals pc =>
        cases pc with
        | notify => simp_all [MainInv, handleSignals]
        | recv =>
          cases hs : p.sigC with
          | nil => simp_all [MainInv, handleSignals]
          | cons sig rest =>
            simp_all [MainInv, handleSignals, mainTrace_append, mainScript]
            simp [mainTrace, mainObs]
        | print sig =>
          simp_all [MainInv, handleSignals, Printf, mainTrace_append, mainScript]
          simp [mainTrace, mainObs]
        | stop =>
          simp_all [MainInv, handleSignals, Server.Stop, mainTrace_append, mainScript]
          obtain ⟨sig, hsig⟩ := h1
          exact ⟨sig, by have hsig' : List.filter mainObs p.trace = _ := hsig; simp [hsig', mainTrace, mainObs]⟩
        | ret => simp_all [MainInv]
      | success =>
        simp_all [MainInv, Printf, mainTrace_append, mainScript]
        obtain ⟨sig, hsig⟩ := h1
        exact ⟨sig, by have hsig' : List.filter mainObs p.trace = _ := hsig; simp [hsig', mainTrace, mainObs]⟩
      | ret =>
        simp_all [MainInv, mainTrace_append, mainScript]
        obtain ⟨sig, hsig⟩ := h1
        exact ⟨sig, by have hsig' : List.filter mainObs p.trace = _ := hsig; simp [hsig', mainTrace, mainObs]⟩
    | gor =>
      dsimp only
      unfold gorStep
      cases hg : p.gor with
      | absent => exact ⟨h0, h1⟩
      | callRun =>
        refine ⟨by simpa using h0, ?_⟩
        simpa [mainTrace_append, mainTrace, mainObs, hex'] using h1
      | inRun => exact ⟨h0, h1⟩
      | checkErr err =>
        cases err with
        | none =>
          refine ⟨by simpa using h0, ?_⟩
          simpa [hex'] using h1
        | some err =>
          refine ⟨by simp [Fatalf], ?_⟩
          simpa [Fatalf, mainTrace_append, mainTrace, mainObs, hex'] using h1
      | done => exact ⟨h0, h1⟩
    | signal sig =>
      dsimp only
      unfold deliver
      split
      · split
        · exact ⟨by simpa using h0, by simpa using h1⟩
        · exact ⟨h0, h1⟩
      · refine ⟨by cases sig <;> simp [Signal.number], ?_⟩
        have hne : (some (128 + sig.number) = some 0) = False := by
          cases sig <;> simp [Signal.number]
        have hobs : mainObs (Obs.exit (128 + sig.number)) = false := by
          cases sig <;> simp [mainObs, Signal.number]
        simpa [mainTrace_append, mainTrace, hobs, hex', hne] using h1
    | runReturns err =>
      dsimp only
      unfold runReturns
      split
      · refine ⟨by simpa using h0, ?_⟩
        simpa [mainTrace_append, mainTrace, mainObs, hex'] using h1
      · exact ⟨h0, h1⟩

theorem MainInv_exec (schedule : List Event) (p : Proc) (h : MainInv p) :
    MainInv (exec schedule p) := by
  induction schedule generalizing p with
  | nil => exact h
  | cons e es ih => exact ih _ (MainInv_step e p h)

theorem MainInv_main {File Cfg : Type} (LoadNodeConfig : File → Option Cfg × Option GoError)
    (a : args File) (schedule : List Event) : MainInv (main LoadNodeConfig a schedule) := by
  rcases main_eq LoadNodeConfig a schedule with h | ⟨text, h⟩
  · rw [h]
    exact MainInv_exec _ _ MainInv_running
  · rw [h]
    exact MainInv_Fatalf text

theorem QuietInv_running : QuietInv running := by
  simp [QuietInv, running]

theorem QuietInv_step (e : Event) (p : Proc) (hq : signalFree [e] = true) (h : QuietInv p) :
    QuietInv (step e p) := by
  unfold step
  split
  · exact h
  · rename_i hex
    have hex' : p.exited = none := by simpa using hex
    obtain ⟨hc, hm, hg⟩ := h
    cases e with
    | signal sig => simp [signalFree] at hq
    | main =>
      dsimp only
      unfold mainStep
      rcases hm with ⟨hm, hga⟩ | hm | hm
      · simp_all [QuietInv]
      · simp_all [QuietInv, handleSignals]
      · simp_all [QuietInv, handleSignals]
    | gor =>
      dsimp only
      unfold gorStep
      cases hgor : p.gor with
      | absent => exact ⟨hc, hm, hg⟩
      | callRun => simp_all [QuietInv]
      | inRun => exact ⟨hc, hm, hg⟩
      | checkErr err =>
        cases err with
        | none => simp_all [QuietInv]
        | some err => simp_all [QuietInv, Fatalf]
      | done => exact ⟨hc, hm, hg⟩
    | runReturns err =>
      dsimp only
      unfold runReturns
      cases hgor : p.gor with
      | inRun => simp_all [QuietInv]
      | absent => exact ⟨hc, hm, hg⟩
      | callRun => exact ⟨hc, hm, hg⟩
      | checkErr err => exact ⟨hc, hm, hg⟩
      | done => exact ⟨hc, hm, hg⟩

theorem signalFree_cons (e : Event) (es : List Event) (h : signalFree (e :: es) = true) :
    signalFree [e] = true ∧ signalFree es = true := by
  cases e <;> simp_all [signalFree]

theorem QuietInv_exec (schedule : List Event) (p : Proc) (hq : signalFree schedule = true)
    (h : QuietInv p) : QuietInv (exec schedule p) := by
  induction schedule generalizing p with
  | nil => exact h
  | cons e es ih =>
    obtain ⟨h1, h2⟩ := signalFree_cons e es hq
    exact ih _ h2 (QuietInv_step e p h1 h)

/-- In an execution without signals in which `Run()` has returned the error `e`,
the goroutine is at line 98 with that error, or has already exited through
`kingpin.Fatalf`. -/
theorem QuietInv_runReturned_some (p : Proc) (h : QuietInv p) (e : GoError)
    (hret : Obs.runReturned (some e) ∈ p.trace) :
    (step Event.gor p).exited = some 1 ∧
    (step Event.gor p).trace = [Obs.runCalled, Obs.runReturned (some e),
      Obs.fatalf ("Application exited abnormally, " ++ e.Error), Obs.exit 1] := by
  obtain ⟨hc, hm, hg⟩ := h
  cases hgor : p.gor with
  | absent => simp_all
  | callRun => simp_all
  | inRun => simp_all
  | checkErr err =>
    simp only [hgor] at hg
    obtain ⟨ht, hex⟩ := hg
    have herr : err = some e := by
      rw [ht] at hret
      simp at hret
      exact hret.symm
    subst herr
    simp [step, hex, gorStep, hgor, Fatalf, ht]
  | done =>
    simp only [hgor] at hg
    rcases hg with ⟨ht, _⟩ | ⟨e', ht, hex⟩
    · rw [ht] at hret
      simp at hret
    · have he : e = e' := by
        rw [ht] at hret
        simpa using hret
      subst he
      simp [step, hex, ht]

/-- In an execution without signals in which `Run()` has returned `nil`, the
process is alive and the main thread is inside `handleSignals`, not past the
receive of line 56. -/
theorem QuietInv_runReturned_none (p : Proc) (h : QuietInv p)
    (hret : Obs.runReturned none ∈ p.trace) :
    p.exited = none ∧ p.sigC = [] ∧ p.trace = [Obs.runCalled, Obs.runReturned none] ∧
    (p.main = MainPc.handleSignals HsPc.notify ∨ p.main = MainPc.handleSignals HsPc.recv) := by
  obtain ⟨hc, hm, hg⟩ := h
  have hmain : p.gor ≠ GoPc.absent →
      (p.main = MainPc.handleSignals HsPc.notify ∨ p.main = MainPc.handleSignals HsPc.recv) := by
    intro hne
    rcases hm with ⟨_, hga⟩ | hm | hm
    · exact absurd hga hne
    · exact Or.inl hm
    · exact Or.inr hm
  cases hgor : p.gor with
  | absent => simp_all
  | callRun => simp_all
  | inRun => simp_all
  | checkErr err =>
    simp only [hgor] at hg
    obtain ⟨ht, hex⟩ := hg
    have herr : err = none := by
      rw [ht] at hret
      simp at hret
      exact hret.symm
    subst herr
    exact ⟨hex, hc, ht, hmain (by simp [hgor])⟩
  | done =>
    simp only [hgor] at hg
    rcases hg with ⟨ht, hex⟩ | ⟨e', ht, hex⟩
    · exact ⟨hex, hc, ht, hmain (by simp [hgor])⟩
    · rw [ht] at hret
      simp at hret

theorem main_quiet {File Cfg : Type} (LoadNodeConfig : File → Option Cfg × Option GoError)
    (a : args File) (schedule : List Event) (hq : signalFree schedule = true) :
    QuietInv (main LoadNodeConfig a schedule) ∨
      ∃ text, main LoadNodeConfig a schedule = Fatalf text running := by
  rcases main_eq LoadNodeConfig a schedule with h | h
  · left
    rw [h]
    exact QuietInv_exec _ _ hq QuietInv_running
  · exact Or.inr h

theorem main_append {File Cfg : Type} (LoadNodeConfig : File → Option Cfg × Option GoError)
    (a : args File) (s t : List Event) :
    main LoadNodeConfig a (s ++ t) = exec t (main LoadNodeConfig a s) := by
  simp [main, exec_append]

theorem caughtMessage_ne_success (sig : Signal) : caughtMessage sig ≠ successMessage := by
  cases sig <;> decide

/-- Once the success message is printed, or the process has exited with status
0, the main thread has gone through the whole of `handleSignals`. -/
theorem MainInv_success (p : Proc) (h : MainInv p)
    (hdone : Obs.printf successMessage ∈ p.trace ∨ p.exited = some 0) :
    ∃ sig post, mainTrace p.trace =
      [Obs.received sig, Obs.printf (caughtMessage sig), Obs.stopCalled, Obs.stopReturned,
        Obs.printf successMessage] ++ post := by
  obtain ⟨h0, h1⟩ := h
  have hmem : p.main ≠ MainPc.ret → Obs.printf successMessage ∈ mainTrace p.trace := by
    intro hne
    rcases hdone with hd | hd
    · simp [mainTrace, hd, mainObs]
    · exact absurd (h0 hd) hne
  have hcm := caughtMessage_ne_success
  cases hm : p.main with
  | spawn => simp_all
  | handleSignals pc =>
    cases pc with
    | notify => simp_all
    | recv => simp_all
    | print sig =>
      simp only [hm] at h1
      have := hmem (by simp [hm])
      rw [h1] at this
      simp [mainScript] at this
    | stop =>
      simp only [hm] at h1
      obtain ⟨sig, h1⟩ := h1
      have := hmem (by simp [hm])
      rw [h1] at this
      simp [mainScript] at this
      exact absurd this.symm (hcm sig)
    | ret => simp_all
  | success =>
    simp only [hm] at h1
    obtain ⟨sig, h1⟩ := h1
    have := hmem (by simp [hm])
    rw [h1] at this
    simp [mainScript] at this
    exact absurd this.symm (hcm sig)
  | ret =>
    simp only [hm] at h1
    obtain ⟨sig, h1⟩ := h1
    by_cases hex : p.exited = some 0
    · exact ⟨sig, [Obs.exit 0], by simpa [hex, mainScript] using h1⟩
    · exact ⟨sig, [], by simpa [hex, mainScript] using h1⟩

theorem MainInv_script (p : Proc) (h : MainInv p) :
    ∃ sig, mainTrace p.trace <+: mainScript sig := by
  obtain ⟨_, h1⟩ := h
  cases hm : p.main with
  | spawn =>
    simp only [hm] at h1
    exact ⟨Signal.SIGINT, h1 ▸ List.nil_prefix⟩
  | handleSignals pc =>
    cases pc with
    | notify =>
      simp only [hm] at h1
      exact ⟨Signal.SIGINT, h1 ▸ List.nil_prefix⟩
    | recv =>
      simp only [hm] at h1
      exact ⟨Signal.SIGINT, h1 ▸ List.nil_prefix⟩
    | print sig =>
      simp only [hm] at h1
      exact ⟨sig, h1 ▸ List.take_prefix _ _⟩
    | stop =>
      simp only [hm] at h1
      obtain ⟨sig, h1⟩ := h1
      exact ⟨sig, h1 ▸ List.take_prefix _ _⟩
    | ret => simp_all
  | success =>
    simp only [hm] at h1
    obtain ⟨sig, h1⟩ := h1
    exact ⟨sig, h1 ▸ List.take_prefix _ _⟩
  | ret =>
    simp only [hm] at h1
    obtain ⟨sig, h1⟩ := h1
    exact ⟨sig, h1 ▸ List.take_prefix _ _⟩

theorem count_stopCalled_mainScript (sig : Signal) :
    (mainScript sig).count Obs.stopCalled = 1 := by
  simp [mainScript, List.count_cons]

theorem count_stopCalled_mainTrace (trace : List Obs) :
    (mainTrace trace).count Obs.stopCalled = trace.count Obs.stopCalled := by
  unfold mainTrace
  exact List.count_filter (by simp [mainObs])

/-- The receive of line 56 blocks while no signal has been delivered. -/
theorem exec_main_blocked (k : Nat) (p : Proc)
    (hrecv : p.main = MainPc.handleSignals HsPc.recv) (hempty : p.sigC = []) :
    exec (List.replicate k Event.main) p = p := by
  induction k with
  | zero => rfl
  | succ k ih =>
    have hs : step Event.main p = p := by
      unfold step
      split
      · rfl
      · cases p
        simp_all [mainStep, handleSignals]
    rw [List.replicate_succ, exec, hs, ih]

/-- Signals delivered to a full channel are dropped. -/
theorem exec_signals_full (more : List Signal) (p : Proc) (hn : p.notified = true)
    (hfull : 1 ≤ p.sigC.length) : exec (more.map Event.signal) p = p := by
  induction more with
  | nil => rfl
  | cons s more ih =>
    have hs : step (Event.signal s) p = p := by
      unfold step
      split
      · rfl
      · have : ¬ p.sigC.length < 1 := by omega
        simp [deliver, hn, this]
    rw [List.map_cons, exec, hs, ih]

/-- From the entry of `handleSignals`, with at least one signal delivered after
`signal.Notify`: the function subscribes, blocks, receives the first signal,
prints it, calls `stop` once, and returns. -/
theorem exec_handleSignals (p : Proc) (k : Nat) (sig : Signal) (more : List Signal)
    (hentry : p.main = MainPc.handleSignals HsPc.notify) (hlive : p.exited = none) :
    exec ([Event.main] ++ List.replicate k Event.main ++ (sig :: more).map Event.signal
        ++ [Event.main, Event.main, Event.main]) p =
      { p with
        main := MainPc.success, notified := true, sigC := [], stopRequested := true,
        trace := p.trace ++ [Obs.received sig, Obs.printf (caughtMessage sig),
          Obs.stopCalled, Obs.stopReturned] } := by
  obtain ⟨pm, pg, pn, pc, ps, pt, pe⟩ := p
  simp only at hentry hlive
  subst hentry hlive
  rw [exec_append, exec_append, exec_append]
  have h1 : exec [Event.main] ⟨MainPc.handleSignals HsPc.notify, pg, pn, pc, ps, pt, none⟩
      = ⟨MainPc.handleSignals HsPc.recv, pg, true, [], ps, pt, none⟩ := by
    simp [exec, step, mainStep, handleSignals]
  rw [h1, exec_main_blocked k _ rfl rfl]
  have h2 : exec ((sig :: more).map Event.signal)
      ⟨MainPc.handleSignals HsPc.recv, pg, true, [], ps, pt, none⟩
      = ⟨MainPc.handleSignals HsPc.recv, pg, true, [sig], ps, pt, none⟩ := by
    rw [List.map_cons, exec]
    have : step (Event.signal sig) ⟨MainPc.handleSignals HsPc.recv, pg, true, [], ps, pt, none⟩
        = ⟨MainPc.handleSignals HsPc.recv, pg, true, [sig], ps, pt, none⟩ := by
      simp [step, deliver]
    rw [this]
    exact exec_signals_full more _ rfl (by simp)
  rw [h2]
  simp [exec, step, mainStep, handleSignals, Printf, Server.Stop]

/-- C10: from the entry of `handleSignals`, for every non-empty sequence of
signals delivered once the channel is subscribed (after any number of blocked
attempts to receive), the function receives the first signal, prints it, calls
`stop` exactly once, after the receive, and returns.  Under every schedule of
`main` the observations of the main thread are a prefix of: receive, print,
call `Stop`, `Stop` returns, print the success message, exit with status 0; so
`Stop` is called at most once, and exactly once, before the message, whenever
the success message is printed. -/
theorem handleSignals_calls_stop_exactly_once {File Cfg : Type}
    (LoadNodeConfig : File → Option Cfg × Option GoError) (a : args File)
    (schedule : List Event) (p : Proc) (k : Nat) (sig : Signal) (more : List Signal)
    (hentry : p.main = MainPc.handleSignals HsPc.notify) (hlive : p.exited = none) :
    exec ([Event.main] ++ List.replicate k Event.main ++ (sig :: more).map Event.signal
        ++ [Event.main, Event.main, Event.main]) p =
      { p with
        main := MainPc.success, notified := true, sigC := [], stopRequested := true,
        trace := p.trace ++ [Obs.received sig, Obs.printf (caughtMessage sig),
          Obs.stopCalled, Obs.stopReturned] } ∧
    (∃ s, mainTrace (main LoadNodeConfig a schedule).trace <+: mainScript s) ∧
    (main LoadNodeConfig a schedule).trace.count Obs.stopCalled ≤ 1 ∧
    (Obs.printf successMessage ∈ (main LoadNodeConfig a schedule).trace →
      (main LoadNodeConfig a schedule).trace.count Obs.stopCalled = 1 ∧
      ∃ s post, mainTrace (main LoadNodeConfig a schedule).trace =
        [Obs.received s, Obs.printf (caughtMessage s), Obs.stopCalled, Obs.stopReturned,
          Obs.printf successMessage] ++ post) := by
  have hinv := MainInv_main LoadNodeConfig a schedule
  obtain ⟨s, hs⟩ := MainInv_script _ hinv
  have hcount : (main LoadNodeConfig a schedule).trace.count Obs.stopCalled ≤ 1 := by
    rw [← count_stopCalled_mainTrace, ← count_stopCalled_mainScript s]
    exact hs.sublist.count_le _
  refine ⟨exec_handleSignals p k sig more hentry hlive, ⟨s, hs⟩, hcount, ?_⟩
  intro hsucc
  obtain ⟨s', post, hpost⟩ := MainInv_success _ hinv (Or.inl hsucc)
  refine ⟨?_, s', post, hpost⟩
  apply le_antisymm hcount
  rw [← count_stopCalled_mainTrace, hpost]
  simp [List.count_cons]

theorem handleSignals_calls_stop_exactly_once_witness :
    ((exec [Event.main, Event.gor] running).main = MainPc.handleSignals HsPc.notify ∧
      (exec [Event.main, Event.gor] running).exited = none) ∧
    (exec ([Event.main] ++ List.replicate 2 Event.main
        ++ [Signal.SIGTERM, Signal.SIGINT].map Event.signal
        ++ [Event.main, Event.main, Event.main]) (exec [Event.main, Event.gor] running) =
      { exec [Event.main, Event.gor] running with
        main := MainPc.success, notified := true, sigC := [], stopRequested := true,
        trace := (exec [Event.main, Event.gor] running).trace ++
          [Obs.received Signal.SIGTERM, Obs.printf (caughtMessage Signal.SIGTERM),
            Obs.stopCalled, Obs.stopReturned] }) :=
  ⟨⟨by decide, by decide⟩,
    (handleSignals_calls_stop_exactly_once
      (fun _ : Unit => ((some 7 : Option Nat), (none : Option GoError)))
      (args.mk () "/data/node1" false false) []
      (exec [Event.main, Event.gor] running) 2 Signal.SIGTERM [Signal.SIGINT]
      (by decide) (by decide)).1⟩

/-- C5 fails on the code, with `Stop()` as the spec describes it: `Run()` is
executing when SIGINT is delivered; the main thread receives it, calls
`Stop()`, which returns at once, prints "Success! All worker go routines
exited, terminating!" and returns, so the process exits with status 0 while
the goroutine is still inside `Run()`, which has not returned. -/
theorem main_success_while_Run_in_flight :
    (main (fun _ : Unit => ((some 7 : Option Nat), (none : Option GoError)))
        (args.mk () "/data/node1" false false)
        [Event.main, Event.gor, Event.main, Event.signal Signal.SIGINT,
          Event.main, Event.main, Event.main, Event.main, Event.main]).trace =
      [Obs.runCalled, Obs.received Signal.SIGINT, Obs.printf (caughtMessage Signal.SIGINT),
        Obs.stopCalled, Obs.stopReturned, Obs.printf successMessage, Obs.exit 0] ∧
    (main (fun _ : Unit => ((some 7 : Option Nat), (none : Option GoError)))
        (args.mk () "/data/node1" false false)
        [Event.main, Event.gor, Event.main, Event.signal Signal.SIGINT,
          Event.main, Event.main, Event.main, Event.main, Event.main]).exited = some 0 ∧
    (main (fun _ : Unit => ((some 7 : Option Nat), (none : Option GoError)))
        (args.mk () "/data/node1" false false)
        [Event.main, Event.gor, Event.main, Event.signal Signal.SIGINT,
          Event.main, Event.main, Event.main, Event.main, Event.main]).gor = GoPc.inRun := by
  refine ⟨?_, ?_, ?_⟩ <;> decide

theorem runReturned_not_mem_Fatalf (text : String) (err : Option GoError) :
    Obs.runReturned err ∉ (Fatalf text running).trace := by
  simp [Fatalf, running]

theorem signalFree_append_gor (schedule : List Event) (h : signalFree schedule = true) :
    signalFree (schedule ++ [Event.gor]) = true := by
  induction schedule with
  | nil => rfl
  | cons e es ih =>
    obtain ⟨_, h2⟩ := signalFree_cons e es h
    cases e <;> simp_all [signalFree]

/-- C6, as stated, fails: `Run()` returns an error before any signal; SIGINT is
then delivered before the goroutine reaches line 98, and the main thread
receives it, calls `Stop()`, prints the success message and returns: the
process exits with status 0, the error is never printed, and the goroutine is
still at line 98. -/
theorem main_success_after_Run_error_race :
    (main (fun _ : Unit => ((some 7 : Option Nat), (none : Option GoError)))
        (args.mk () "/data/node1" false false)
        [Event.main, Event.gor, Event.main,
          Event.runReturns (some (GoError.base "disk full")),
          Event.signal Signal.SIGINT,
          Event.main, Event.main, Event.main, Event.main, Event.main]).trace =
      [Obs.runCalled, Obs.runReturned (some (GoError.base "disk full")),
        Obs.received Signal.SIGINT, Obs.printf (caughtMessage Signal.SIGINT),
        Obs.stopCalled, Obs.stopReturned, Obs.printf successMessage, Obs.exit 0] ∧
    (main (fun _ : Unit => ((some 7 : Option Nat), (none : Option GoError)))
        (args.mk () "/data/node1" false false)
        [Event.main, Event.gor, Event.main,
          Event.runReturns (some (GoError.base "disk full")),
          Event.signal Signal.SIGINT,
          Event.main, Event.main, Event.main, Event.main, Event.main]).exited = some 0 ∧
    (main (fun _ : Unit => ((some 7 : Option Nat), (none : Option GoError)))
        (args.mk () "/data/node1" false false)
        [Event.main, Event.gor, Event.main,
          Event.runReturns (some (GoError.base "disk full")),
          Event.signal Signal.SIGINT,
          Event.main, Event.main, Event.main, Event.main, Event.main]).gor =
      GoPc.checkErr (some (GoError.base "disk full")) := by
  refine ⟨?_, ?_, ?_⟩ <;> decide

/-- C6, amended: in every execution of `main` in which `server.Run()` has returned
the error `e` and no signal is delivered before the goroutine has executed
its next statement (lines 98-99), the process has exited with status 1 from
the goroutine: the trace is the call of `Run()`, its return, the message
"Application exited abnormally, e" and the exit, the success message is not
printed, no signal was needed, and nothing happens afterwards. -/
theorem main_exits_on_Run_error {File Cfg : Type}
    (LoadNodeConfig : File → Option Cfg × Option GoError) (a : args File)
    (schedule : List Event) (e : GoError)
    (hquiet : signalFree schedule = true)
    (hret : Obs.runReturned (some e) ∈ (main LoadNodeConfig a schedule).trace) :
    (main LoadNodeConfig a (schedule ++ [Event.gor])).exited = some 1 ∧
    (main LoadNodeConfig a (schedule ++ [Event.gor])).trace =
      [Obs.runCalled, Obs.runReturned (some e),
        Obs.fatalf ("Application exited abnormally, " ++ e.Error), Obs.exit 1] ∧
    Obs.printf successMessage ∉ (main LoadNodeConfig a (schedule ++ [Event.gor])).trace ∧
    signalFree (schedule ++ [Event.gor]) = true ∧
    ∀ later : List Event,
      main LoadNodeConfig a (schedule ++ [Event.gor] ++ later)
        = main LoadNodeConfig a (schedule ++ [Event.gor]) := by
  rcases main_quiet LoadNodeConfig a schedule hquiet with hq | ⟨text, hf⟩
  · obtain ⟨hex, htr⟩ := QuietInv_runReturned_some _ hq e hret
    have hstep : main LoadNodeConfig a (schedule ++ [Event.gor])
        = step Event.gor (main LoadNodeConfig a schedule) := by
      rw [main_append]
      rfl
    refine ⟨by rw [hstep, hex], by rw [hstep, htr], ?_, signalFree_append_gor _ hquiet, ?_⟩
    · rw [hstep, htr]
      simp
    · intro later
      rw [main_append _ _ (schedule ++ [Event.gor]) later]
      exact exec_of_exited _ _ (by rw [hstep, hex]; simp)
  · rw [hf] at hret
    exact absurd hret (runReturned_not_mem_Fatalf _ _)

theorem main_exits_on_Run_error_witness :
    (signalFree [Event.main, Event.gor, Event.main, Event.main,
        Event.runReturns (some (GoError.base "disk full"))] = true ∧
      Obs.runReturned (some (GoError.base "disk full")) ∈
        (main (fun _ : Unit => ((some 7 : Option Nat), (none : Option GoError)))
          (args.mk () "/data/node1" false false)
          [Event.main, Event.gor, Event.main, Event.main,
            Event.runReturns (some (GoError.base "disk full"))]).trace) ∧
    (main (fun _ : Unit => ((some 7 : Option Nat), (none : Option GoError)))
        (args.mk () "/data/node1" false false)
        ([Event.main, Event.gor, Event.main, Event.main,
            Event.runReturns (some (GoError.base "disk full"))] ++ [Event.gor])).exited
      = some 1 :=
  ⟨⟨by decide, by decide⟩,
    (main_exits_on_Run_error
      (fun _ : Unit => ((some 7 : Option Nat), (none : Option GoError)))
      (args.mk () "/data/node1" false false)
      [Event.main, Event.gor, Event.main, Event.main,
        Event.runReturns (some (GoError.base "disk full"))]
      (GoError.base "disk full") (by decide) (by decide)).1⟩

/-- In an execution without signals in which `Run()` has returned the error `e`,
the process has exited, or the goroutine is at line 98 with that error and
the main thread is past the `go` statement. -/
theorem QuietInv_runReturned_some_state (p : Proc) (h : QuietInv p) (e : GoError)
    (hret : Obs.runReturned (some e) ∈ p.trace) :
    p.exited ≠ none ∨ (p.gor = GoPc.checkErr (some e) ∧ p.main ≠ MainPc.spawn) := by
  obtain ⟨_, hm, hg⟩ := h
  cases hgor : p.gor with
  | absent => simp_all
  | callRun => simp_all
  | inRun => simp_all
  | checkErr err =>
    simp only [hgor] at hg
    obtain ⟨ht, _⟩ := hg
    rw [ht] at hret
    simp at hret
    right
    refine ⟨by rw [hret], ?_⟩
    rcases hm with ⟨_, hga⟩ | hm | hm
    · rw [hgor] at hga
      exact absurd hga (by simp)
    · simp [hm]
    · simp [hm]
  | done =>
    simp only [hgor] at hg
    rcases hg with ⟨ht, _⟩ | ⟨e', _, hex⟩
    · rw [ht] at hret
      simp at hret
    · left
      simp [hex]

/-- No event takes the goroutine away from line 98 with the error `e` without
ending the process. -/
theorem step_keeps_pending_error (ev : Event) (e : GoError) (p : Proc)
    (h : p.exited ≠ none ∨ (p.gor = GoPc.checkErr (some e) ∧ p.main ≠ MainPc.spawn)) :
    (step ev p).exited ≠ none ∨
      ((step ev p).gor = GoPc.checkErr (some e) ∧ (step ev p).main ≠ MainPc.spawn) := by
  unfold step
  split
  · exact h
  · rename_i hex
    obtain ⟨hgor, hmain⟩ : p.gor = GoPc.checkErr (some e) ∧ p.main ≠ MainPc.spawn := by
      rcases h with h | h
      · exact absurd (by simpa using h) hex
      · exact h
    cases ev with
    | main =>
      right
      dsimp only
      unfold mainStep
      cases hm : p.main with
      | spawn => exact absurd hm hmain
      | handleSignals pc =>
        cases pc with
        | notify => simp [handleSignals, hgor]
        | recv =>
          cases hs : p.sigC with
          | nil => simp [handleSignals, hs, hgor]
          | cons sig rest => simp [handleSignals, hs, hgor]
        | print sig => simp [handleSignals, Printf, hgor]
        | stop => simp [handleSignals, Server.Stop, hgor]
        | ret => simp [handleSignals, hgor]
      | success => simp [Printf, hgor]
      | ret => simp [hgor]
    | gor =>
      left
      simp [gorStep, hgor, Fatalf]
    | signal sig =>
      dsimp only
      unfold deliver
      split
      · right
        split
        · exact ⟨hgor, hmain⟩
        · exact ⟨hgor, hmain⟩
      · left
        simp
    | runReturns err =>
      right
      simp [runReturns, hgor, hmain]

/-- Once `Run()` has returned an error to the goroutine, whatever happens next the
process has exited when the goroutine has taken one more step. -/
theorem exec_exits_after_Run_error (later : List Event) (e : GoError) (p : Proc)
    (h : p.exited ≠ none ∨ (p.gor = GoPc.checkErr (some e) ∧ p.main ≠ MainPc.spawn)) :
    (exec (later ++ [Event.gor]) p).exited ≠ none := by
  induction later generalizing p with
  | nil =>
    by_cases hex : p.exited = none
    · rcases h with h | h
      · exact absurd hex h
      · simp [exec, step, hex, gorStep, h.1, Fatalf]
    · simp [exec, step, hex]
  | cons ev es ih =>
    exact ih _ (step_keeps_pending_error ev e p h)

/-- C7, as stated, fails for a `nil` return: `Run()` returns `nil` before any
signal, the goroutine ends, and the main thread stays blocked at the receive
of line 56: the process has not exited and neither thread can move. -/
theorem main_blocked_after_Run_returns_nil :
    (main (fun _ : Unit => ((some 7 : Option Nat), (none : Option GoError)))
        (args.mk () "/data/node1" false false)
        [Event.main, Event.gor, Event.main, Event.runReturns none, Event.gor, Event.main]) =
      { main := MainPc.handleSignals HsPc.recv, gor := GoPc.done, notified := true,
        sigC := [], stopRequested := false,
        trace := [Obs.runCalled, Obs.runReturned none], exited := none } ∧
    step Event.main
        { main := MainPc.handleSignals HsPc.recv, gor := GoPc.done, notified := true,
          sigC := [], stopRequested := false,
          trace := [Obs.runCalled, Obs.runReturned none], exited := none } =
      { main := MainPc.handleSignals HsPc.recv, gor := GoPc.done, notified := true,
        sigC := [], stopRequested := false,
        trace := [Obs.runCalled, Obs.runReturned none], exited := none } ∧
    step Event.gor
        { main := MainPc.handleSignals HsPc.recv, gor := GoPc.done, notified := true,
          sigC := [], stopRequested := false,
          trace := [Obs.runCalled, Obs.runReturned none], exited := none } =
      { main := MainPc.handleSignals HsPc.recv, gor := GoPc.done, notified := true,
        sigC := [], stopRequested := false,
        trace := [Obs.runCalled, Obs.runReturned none], exited := none } := by
  refine ⟨?_, ?_, ?_⟩ <;> decide

/-- C7, amended: in every execution of `main` in which no signal has been
delivered: once `Run()` has returned an error, the main thread does not stay
blocked for ever: with no signal the goroutine's next statement exits the
process with status 1, and whatever happens next (signals included) the
process has exited once the goroutine has taken that step; once `Run()` has
returned `nil` the process has not exited, the success message is not printed,
and the main thread is inside `handleSignals`, at or before the receive of
line 56, where it stays blocked as long as no signal is delivered. -/
theorem main_after_Run_returns_without_signal {File Cfg : Type}
    (LoadNodeConfig : File → Option Cfg × Option GoError) (a : args File)
    (schedule : List Event) (hquiet : signalFree schedule = true) :
    (∀ e, Obs.runReturned (some e) ∈ (main LoadNodeConfig a schedule).trace →
      (main LoadNodeConfig a (schedule ++ [Event.gor])).exited = some 1 ∧
      ∀ later : List Event,
        (main LoadNodeConfig a (schedule ++ (later ++ [Event.gor]))).exited ≠ none) ∧
    (Obs.runReturned none ∈ (main LoadNodeConfig a schedule).trace →
      (main LoadNodeConfig a schedule).exited = none ∧
      Obs.printf successMessage ∉ (main LoadNodeConfig a schedule).trace ∧
      ((main LoadNodeConfig a schedule).main = MainPc.handleSignals HsPc.notify ∨
        (main LoadNodeConfig a schedule).main = MainPc.handleSignals HsPc.recv) ∧
      ((main LoadNodeConfig a schedule).main = MainPc.handleSignals HsPc.recv →
        ∀ k, exec (List.replicate k Event.main) (main LoadNodeConfig a schedule)
          = main LoadNodeConfig a schedule)) := by
  rcases main_quiet LoadNodeConfig a schedule hquiet with hq | ⟨text, hf⟩
  · constructor
    · intro e hret
      have hstep : main LoadNodeConfig a (schedule ++ [Event.gor])
          = step Event.gor (main LoadNodeConfig a schedule) := by
        rw [main_append]
        rfl
      refine ⟨?_, ?_⟩
      · rw [hstep]
        exact (QuietInv_runReturned_some _ hq e hret).1
      · intro later
        rw [main_append]
        exact exec_exits_after_Run_error later e _
          (QuietInv_runReturned_some_state _ hq e hret)
    · intro hret
      obtain ⟨hex, hc, htr, hm⟩ := QuietInv_runReturned_none _ hq hret
      refine ⟨hex, ?_, hm, ?_⟩
      · rw [htr]
        simp
      · intro hrecv k
        exact exec_main_blocked k _ hrecv hc
  · rw [hf]
    constructor
    · intro e hret
      exact absurd hret (runReturned_not_mem_Fatalf _ _)
    · intro hret
      exact absurd hret (runReturned_not_mem_Fatalf _ _)

theorem main_after_Run_returns_without_signal_witness :
    signalFree [Event.main, Event.gor, Event.main, Event.runReturns none, Event.gor,
      Event.main, Event.main] = true ∧
    (main (fun _ : Unit => ((some 7 : Option Nat), (none : Option GoError)))
        (args.mk () "/data/node1" false false)
        [Event.main, Event.gor, Event.main, Event.runReturns none, Event.gor,
          Event.main, Event.main]).exited = none :=
  ⟨by decide,
    ((main_after_Run_returns_without_signal
      (fun _ : Unit => ((some 7 : Option Nat), (none : Option GoError)))
      (args.mk () "/data/node1" false false)
      [Event.main, Event.gor, Event.main, Event.runReturns none, Event.gor,
        Event.main, Event.main] (by decide)).2 (by decide)).1⟩

end MirBFT
